import Mathlib

/-!
Shallow embedding of `src/innermatch/ranker.py` (class `FeedbackRanker`).

Numbers: the Python code computes with IEEE floats; the embedding uses exact
rationals (ℚ), so the algebraic content of the update and scoring formulas is
captured exactly.  Matrices are lists of rows (`List (List ℚ)`), since the code
manipulates dynamically-shaped numpy arrays whose shapes may disagree.

External collaborators are embedded as follows:
 - the file system (`os.path.exists` / `pickle.load` / `pickle.dump`) is a map
   from file paths to stored matrices (`Store`);
 - `np.dot` / `np.outer` / array addition are embedded with their numpy
   semantics, a mismatched shape yielding a `shapeError` (numpy's ValueError);
 - `np.argsort` is embedded by its documented contract: the list of indices
   that sorts the key list ascending.  The model fixes a stable tie order;
   the source's default sort kind leaves the tie order implementation-defined,
   so no theorem below depends on the order of equal keys.
 - `_login` always returns True in the source (a placeholder); its result is a
   field of the state so that the behaviour of a failing gate is statable.
-/

namespace Innermatch

/-- Discriminable failure outcomes of the Python code:
`indexError` is Python's IndexError (indexing `target_vector_array[0]` of an
empty sequence), `dimensionMismatch` is the explicit
`Exception("Error: Vector sizes do not match.")`, `unauthorized` is
`Exception("Login failed: Unauthorized ...")`, `noModel` is
`Exception("No model to save. ...")`, and `shapeError` is numpy's ValueError
for operands with mismatched shapes. -/
inductive Err where
  | indexError
  | dimensionMismatch
  | unauthorized
  | noModel
  | shapeError
  deriving DecidableEq

abbrev Vec := List ℚ

abbrev Mat := List (List ℚ)

/-- A `Mat` with `m` rows, each of length `n`. -/
def HasShape (A : Mat) (m n : Nat) : Prop :=
  A.length = m ∧ ∀ row ∈ A, row.length = n

instance (A : Mat) (m n : Nat) : Decidable (HasShape A m n) := by
  unfold HasShape
  infer_instance

/-- Entry `(j, k)` of a matrix, defaulting to `0` out of range. -/
def entry (A : Mat) (j k : Nat) : ℚ :=
  (A.getD j []).getD k 0

/-- The file system: pickled matrix stored at each existing path. -/
abbrev Store := String → Option Mat

def emptyStore : Store := fun _ => none

/-- Writing a file: `pickle.dump` at path `p`. -/
def storeWrite (store : Store) (p : String) (M : Mat) : Store :=
  fun q => if q = p then some M else store q

/-- In-memory state of a `FeedbackRanker` instance: the constructor arguments
and the mutable fields `dimension` and `W`.  `login` is the value the
placeholder `_login` gate returns (`True` in the source). -/
structure RankerState where
  userId : String
  password : String
  sessionId : String
  modelLocation : String
  dimension : Option Nat
  W : Option Mat
  login : Bool
  deriving DecidableEq

def setDim (st : RankerState) (d : Option Nat) : RankerState :=
  ⟨st.userId, st.password, st.sessionId, st.modelLocation, d, st.W, st.login⟩

def setW (st : RankerState) (w : Option Mat) : RankerState :=
  ⟨st.userId, st.password, st.sessionId, st.modelLocation, st.dimension, w, st.login⟩

/-- `os.path.join(a, b)` for the shapes that occur here (relative second
component): inserts a separator unless `a` is empty or already ends in one. -/
def osPathJoin (a b : String) : String :=
  if a = "" then b else if a.data.getLastD ' ' = '/' then a ++ b else a ++ "/" ++ b

/-- `_get_model_path`: `os.path.join(model_location, f"{user_id}_{session_id}")`. -/
def modelPath (st : RankerState) : String :=
  osPathJoin st.modelLocation (st.userId ++ "_" ++ st.sessionId)

/-- `np.zeros((d, d)) + np.eye(d, d)`: the d×d identity matrix. -/
def eye (d : Nat) : Mat :=
  (List.range d).map fun i => (List.range d).map fun j => if i = j then (1 : ℚ) else 0

/-- `np.dot` on two 1-D arrays: the scalar product; numpy raises ValueError
when the lengths disagree. -/
def npDotVV (a b : Vec) : Except Err ℚ :=
  if a.length = b.length then .ok (List.sum (List.zipWith (· * ·) a b)) else .error .shapeError

/-- `np.dot` on a 2-D and a 1-D array: matrix–vector product; numpy raises
ValueError when the row length disagrees with the vector length. -/
def npDotMV (A : Mat) (v : Vec) : Except Err Vec :=
  if ∀ row ∈ A, row.length = v.length then
    .ok (A.map fun row => List.sum (List.zipWith (· * ·) row v))
  else .error .shapeError

/-- `np.outer(a, b)`: the matrix with entry `(j, k) = a[j] * b[k]`. -/
def npOuter (a b : Vec) : Mat :=
  a.map fun x => b.map fun y => x * y

/-- Scalar times matrix. -/
def matSmul (c : ℚ) (A : Mat) : Mat :=
  A.map fun row => row.map fun x => c * x

/-- Elementwise matrix addition; numpy raises ValueError on mismatched shapes
(the model does not reproduce numpy broadcasting of unequal shapes, which no
code path of the repository relies on). -/
def matAdd (A B : Mat) : Except Err Mat :=
  if A.length = B.length ∧ ∀ p ∈ List.zip A B, p.1.length = p.2.length then
    .ok (List.zipWith (fun r s => List.zipWith (· + ·) r s) A B)
  else .error .shapeError

/-- `load_model(dimension)`: gate check, set `self.dimension`, then read the
model file, initializing to the identity when no file exists.  The stored
matrix is returned unchanged — no check against `dimension` is performed. -/
def load_model (st : RankerState) (store : Store) (dimension : Nat) :
    Except Err (Mat × RankerState) :=
  if st.login = false then .error .unauthorized
  else
    let st1 := setDim st (some dimension)
    match store (modelPath st1) with
    | none => .ok (eye dimension, setW st1 (some (eye dimension)))
    | some M => .ok (M, setW st1 (some M))

/-- `save_model()`: gate check, then dump `self.W` at the model path. -/
def save_model (st : RankerState) (store : Store) : Except Err Store :=
  if st.login = false then .error .unauthorized
  else
    match st.W with
    | none => .error .noModel
    | some M => .ok (storeWrite store (modelPath st) M)

/-- The inline `if self.W is None: self.load_model(d)` used by both `rank` and
`feedback`: the effective weight matrix and the state after the possible load. -/
def resolveW (st : RankerState) (store : Store) (d : Nat) :
    Except Err (Mat × RankerState) :=
  match st.W with
  | some M => .ok (M, st)
  | none => load_model st store d

/-- The energy of one candidate: `-0.5 * np.dot(query_vector, np.dot(W, c))`. -/
def energy (W : Mat) (query : Vec) (c : Vec) : Except Err ℚ :=
  match npDotMV W c with
  | .error e => .error e
  | .ok Wc =>
    match npDotVV query Wc with
    | .error e => .error e
    | .ok s => .ok (-(1/2 : ℚ) * s)

/-- The energy list `[-0.5 * np.dot(query, np.dot(W, target[i])) for i in range(n)]`;
the comprehension stops at the first failing candidate. -/
def energies (W : Mat) (query : Vec) : List Vec → Except Err (List ℚ)
  | [] => .ok []
  | c :: cs =>
    match energy W query c with
    | .error e => .error e
    | .ok x =>
      match energies W query cs with
      | .error e => .error e
      | .ok xs => .ok (x :: xs)

/-- `np.argsort(keys)` by its documented contract: the indices `0..n-1`
reordered so that the keys are ascending (ties in a fixed order; the source's
default sort kind leaves the tie order implementation-defined). -/
def argsort (keys : List ℚ) : List Nat :=
  List.insertionSort (fun i j => keys.getD i 0 ≤ keys.getD j 0) (List.range keys.length)

/-- `FeedbackRanker.rank(target_vector_array, query_vector)`.  In source
order: index `target_vector_array[0]` (IndexError when empty), compare its
length with the query length, lazily load the model, compute the energies,
and return `np.argsort(energies)`. -/
def rank (st : RankerState) (store : Store) (targets : List Vec) (query : Vec) :
    Except Err (List Nat × RankerState) :=
  match targets with
  | [] => .error .indexError
  | t0 :: _ =>
    if query.length ≠ t0.length then .error .dimensionMismatch
    else
      match resolveW st store query.length with
      | .error e => .error e
      | .ok (W, st1) =>
        match energies W query targets with
        | .error e => .error e
        | .ok es => .ok (argsort es, st1)

/-- List indexing `l[i]`, IndexError out of range. -/
def nthE {α : Type} (l : List α) (i : Nat) : Except Err α :=
  match l[i]? with
  | some x => .ok x
  | none => .error .indexError

/-- One generator term `feedback_array[i] * np.outer(target_vector_array[i],
query_vector_array[i])`. -/
def updateTerm (targets queries : List Vec) (labels : List ℚ) (i : Nat) :
    Except Err Mat :=
  match nthE labels i with
  | .error e => .error e
  | .ok lab =>
    match nthE targets i with
    | .error e => .error e
    | .ok t =>
      match nthE queries i with
      | .error e => .error e
      | .ok q => .ok (matSmul lab (npOuter t q))

/-- Collect a list of fallible results, stopping at the first failure. -/
def collectE : List (Except Err Mat) → Except Err (List Mat)
  | [] => .ok []
  | x :: xs =>
    match x with
    | .error e => .error e
    | .ok m =>
      match collectE xs with
      | .error e => .error e
      | .ok ms => .ok (m :: ms)

/-- The generator terms for `i in range(len(feedback_array))`. -/
def updateTerms (targets queries : List Vec) (labels : List ℚ) :
    Except Err (List Mat) :=
  collectE ((List.range labels.length).map (updateTerm targets queries labels))

/-- Left fold of matrix addition, as Python `sum` performs on the tail. -/
def sumFrom (acc : Mat) : List Mat → Except Err Mat
  | [] => .ok acc
  | m :: ms =>
    match matAdd acc m with
    | .error e => .error e
    | .ok acc2 => sumFrom acc2 ms

/-- Python `sum` over a sequence of matrices: `none` models the integer `0`
returned on an empty sequence (which then broadcasts away in `W + 0.0`). -/
def npSum (ms : List Mat) : Except Err (Option Mat) :=
  match ms with
  | [] => .ok none
  | m :: rest =>
    match sumFrom m rest with
    | .error e => .error e
    | .ok S => .ok (some S)

/-- `FeedbackRanker.feedback(target_vector_array, query_vector_array,
feedback_array, rank_array, learning_rate)`.  In source order: return
immediately when targets or queries are empty, compare the first query and
first target lengths, lazily load the model, form
`W + learning_rate * sum(labels[i] * outer(t[i], q[i]))`, and `save_model`. -/
def feedback (st : RankerState) (store : Store) (targets queries : List Vec)
    (labels : List ℚ) (learningRate : ℚ) :
    Except Err (RankerState × Store) :=
  if targets.length = 0 ∨ queries.length = 0 then .ok (st, store)
  else if (queries.headD []).length ≠ (targets.headD []).length then
    .error .dimensionMismatch
  else
    match resolveW st store (queries.headD []).length with
    | .error e => .error e
    | .ok (W, st1) =>
      match updateTerms targets queries labels with
      | .error e => .error e
      | .ok terms =>
        match npSum terms with
        | .error e => .error e
        | .ok none =>
          let st2 := setW st1 (some W)
          match save_model st2 store with
          | .error e => .error e
          | .ok store1 => .ok (st2, store1)
        | .ok (some S) =>
          match matAdd W (matSmul learningRate S) with
          | .error e => .error e
          | .ok Wnew =>
            let st2 := setW st1 (some Wnew)
            match save_model st2 store with
            | .error e => .error e
            | .ok store1 => .ok (st2, store1)

/-! ### Entry and shape lemmas -/

theorem getD_lt {α : Type} (l : List α) (j : Nat) (d : α) (h : j < l.length) :
    l.getD j d = l[j] :=
  List.getD_eq_getElem l d h

theorem getD_ge {α : Type} (l : List α) (j : Nat) (d : α) (h : l.length ≤ j) :
    l.getD j d = d :=
  List.getD_eq_default l d h

theorem getD_map_default {α β : Type} (f : α → β) (l : List α) (j : Nat) (d : β) :
    (l.map f).getD j d = if h : j < l.length then f (l[j]) else d := by
  by_cases h : j < l.length
  · rw [dif_pos h]
    have h2 : j < (l.map f).length := by simpa using h
    rw [getD_lt _ _ _ h2, List.getElem_map]
  · rw [dif_neg h, getD_ge _ _ _ (by simpa using Nat.le_of_not_lt h)]

theorem entry_npOuter (a b : Vec) (j k : Nat) :
    entry (npOuter a b) j k = a.getD j 0 * b.getD k 0 := by
  unfold entry npOuter
  rw [getD_map_default]
  by_cases hj : j < a.length
  · rw [dif_pos hj, getD_map_default, getD_lt a j 0 hj]
    by_cases hk : k < b.length
    · rw [dif_pos hk, getD_lt b k 0 hk]
    · rw [dif_neg hk, getD_ge b k 0 (Nat.le_of_not_lt hk), mul_zero]
  · rw [dif_neg hj, getD_ge a j 0 (Nat.le_of_not_lt hj), zero_mul]
    simp [List.getD]

theorem entry_matSmul (c : ℚ) (A : Mat) (j k : Nat) :
    entry (matSmul c A) j k = c * entry A j k := by
  unfold entry matSmul
  rw [getD_map_default]
  by_cases hj : j < A.length
  · rw [dif_pos hj, getD_map_default, getD_lt A j [] hj]
    by_cases hk : k < (A[j]).length
    · rw [dif_pos hk, getD_lt (A[j]) k 0 hk]
    · rw [dif_neg hk, getD_ge (A[j]) k 0 (Nat.le_of_not_lt hk), mul_zero]
  · rw [dif_neg hj, getD_ge A j [] (Nat.le_of_not_lt hj)]
    simp [List.getD]

theorem hasShape_npOuter (a b : Vec) : HasShape (npOuter a b) a.length b.length := by
  refine ⟨by simp [npOuter], fun row hrow => ?_⟩
  simp only [npOuter, List.mem_map] at hrow
  obtain ⟨x, -, rfl⟩ := hrow
  simp

theorem hasShape_matSmul {A : Mat} {m n : Nat} (h : HasShape A m n) (c : ℚ) :
    HasShape (matSmul c A) m n := by
  refine ⟨by simpa [matSmul] using h.1, fun row hrow => ?_⟩
  simp only [matSmul, List.mem_map] at hrow
  obtain ⟨r, hr, rfl⟩ := hrow
  simpa using h.2 r hr

theorem hasShape_eye (d : Nat) : HasShape (eye d) d d := by
  refine ⟨by simp [eye], fun row hrow => ?_⟩
  simp only [eye, List.mem_map] at hrow
  obtain ⟨i, -, rfl⟩ := hrow
  simp

theorem matAdd_ok {A B : Mat} {m n : Nat} (hA : HasShape A m n) (hB : HasShape B m n) :
    matAdd A B = .ok (List.zipWith (fun r s => List.zipWith (· + ·) r s) A B) := by
  unfold matAdd
  rw [if_pos]
  refine ⟨hA.1.trans hB.1.symm, fun p hp => ?_⟩
  have hmem := List.of_mem_zip hp
  exact (hA.2 p.1 hmem.1).trans (hB.2 p.2 hmem.2).symm

theorem hasShape_zipAdd {A B : Mat} {m n : Nat} (hA : HasShape A m n) (hB : HasShape B m n) :
    HasShape (List.zipWith (fun r s => List.zipWith (· + ·) r s) A B) m n := by
  refine ⟨by simp [List.length_zipWith, hA.1, hB.1], ?_⟩
  rw [List.forall_mem_iff_getElem]
  intro i hi
  rw [List.getElem_zipWith]
  rw [List.length_zipWith, hA.1, hB.1, Nat.min_self] at hi
  have hiA : i < A.length := by rw [hA.1]; exact hi
  have hiB : i < B.length := by rw [hB.1]; exact hi
  simp [List.length_zipWith, hA.2 _ (List.getElem_mem hiA), hB.2 _ (List.getElem_mem hiB)]

theorem entry_zipAdd {A B : Mat} {m n : Nat} (hA : HasShape A m n) (hB : HasShape B m n)
    {j k : Nat} (hj : j < m) (hk : k < n) :
    entry (List.zipWith (fun r s => List.zipWith (· + ·) r s) A B) j k =
      entry A j k + entry B j k := by
  have hjA : j < A.length := hA.1 ▸ hj
  have hjB : j < B.length := hB.1 ▸ hj
  have hlen : j < (List.zipWith (fun r s => List.zipWith (· + ·) r s) A B).length := by
    simp [List.length_zipWith]; omega
  unfold entry
  rw [getD_lt _ _ _ hlen, List.getElem_zipWith,
    getD_lt _ _ _ hjA, getD_lt _ _ _ hjB]
  have hkA : k < (A[j]).length := by rw [hA.2 _ (List.getElem_mem hjA)]; exact hk
  have hkB : k < (B[j]).length := by rw [hB.2 _ (List.getElem_mem hjB)]; exact hk
  have hkz : k < (List.zipWith (· + ·) (A[j]) (B[j])).length := by
    simp [List.length_zipWith]; omega
  rw [getD_lt _ _ _ hkz, List.getElem_zipWith,
    getD_lt _ _ _ hkA, getD_lt _ _ _ hkB]

/-! ### Summation and term-list lemmas -/

theorem sumFrom_spec {D : Nat} :
    ∀ (ms : List Mat) (acc : Mat), HasShape acc D D → (∀ m ∈ ms, HasShape m D D) →
    ∃ S, sumFrom acc ms = .ok S ∧ HasShape S D D ∧
      ∀ j k, j < D → k < D →
        entry S j k = entry acc j k + ((ms.map fun m => entry m j k).sum)
  | [], acc, hacc, _ => ⟨acc, rfl, hacc, by simp⟩
  | m :: ms, acc, hacc, hms => by
    have hm : HasShape m D D := hms m (by simp)
    have hrest : ∀ x ∈ ms, HasShape x D D := fun x hx => hms x (by simp [hx])
    obtain ⟨S, hS, hSshape, hSentry⟩ :=
      sumFrom_spec ms _ (hasShape_zipAdd hacc hm) hrest
    refine ⟨S, ?_, hSshape, ?_⟩
    · rw [sumFrom, matAdd_ok hacc hm]
      exact hS
    · intro j k hj hk
      rw [hSentry j k hj hk, entry_zipAdd hacc hm hj hk]
      simp [add_assoc]

theorem nthE_ok {α : Type} (l : List α) (i : Nat) (h : i < l.length) :
    nthE l i = .ok (l[i]) := by
  unfold nthE
  rw [List.getElem?_eq_getElem h]

theorem updateTerm_ok (targets queries : List Vec) (labels : List ℚ) (i : Nat)
    (hi : i < labels.length) (ht : i < targets.length) (hq : i < queries.length) :
    updateTerm targets queries labels i =
      .ok (matSmul (labels.getD i 0) (npOuter (targets.getD i []) (queries.getD i []))) := by
  unfold updateTerm
  rw [nthE_ok _ _ hi, nthE_ok _ _ ht, nthE_ok _ _ hq,
    getD_lt _ _ _ hi, getD_lt _ _ _ ht, getD_lt _ _ _ hq]

theorem collectE_ok {f : Nat → Except Err Mat} {g : Nat → Mat} :
    ∀ l : List Nat, (∀ i ∈ l, f i = .ok (g i)) → collectE (l.map f) = .ok (l.map g)
  | [], _ => rfl
  | i :: l, h => by
    have h1 : f i = .ok (g i) := h i (by simp)
    have h2 := collectE_ok l fun j hj => h j (by simp [hj])
    simp only [List.map_cons, collectE, h1, h2]

theorem updateTerms_ok (targets queries : List Vec) (labels : List ℚ)
    (hlt : labels.length ≤ targets.length) (hlq : labels.length ≤ queries.length) :
    updateTerms targets queries labels =
      .ok ((List.range labels.length).map fun i =>
        matSmul (labels.getD i 0) (npOuter (targets.getD i []) (queries.getD i []))) := by
  unfold updateTerms
  apply collectE_ok
  intro i hi
  have hi2 : i < labels.length := by simpa using List.mem_range.mp hi
  exact updateTerm_ok targets queries labels i hi2 (lt_of_lt_of_le hi2 hlt)
    (lt_of_lt_of_le hi2 hlq)

theorem mat_ext {A B : Mat} {m n : Nat} (hA : HasShape A m n) (hB : HasShape B m n)
    (h : ∀ j k, j < m → k < n → entry A j k = entry B j k) : A = B := by
  apply List.ext_getElem (hA.1.trans hB.1.symm)
  intro j hjA hjB
  apply List.ext_getElem
  · rw [hA.2 _ (List.getElem_mem hjA), hB.2 _ (List.getElem_mem hjB)]
  intro k hkA hkB
  have hj : j < m := hA.1 ▸ hjA
  have hk : k < n := by
    have hrow := hA.2 _ (List.getElem_mem hjA)
    rw [hrow] at hkA
    exact hkA
  have he := h j k hj hk
  unfold entry at he
  rw [getD_lt _ _ _ hjA, getD_lt _ _ _ hkA, getD_lt _ _ _ hjB, getD_lt _ _ _ hkB] at he
  exact he

/-! ### Symbolic execution of a successful feedback call -/

theorem feedback_spec (st st1 : RankerState) (store : Store) (W : Mat)
    (targets queries : List Vec) (labels : List ℚ) (lr : ℚ) (D : Nat)
    (hlt : labels.length = targets.length)
    (hlq : labels.length = queries.length)
    (hne : labels ≠ [])
    (ht : ∀ t ∈ targets, t.length = D)
    (hq : ∀ q ∈ queries, q.length = D)
    (hres : resolveW st store (queries.headD []).length = .ok (W, st1))
    (hW : HasShape W D D)
    (hlogin : st1.login = true) :
    ∃ Wnew,
      feedback st store targets queries labels lr =
        .ok (setW st1 (some Wnew), storeWrite store (modelPath st1) Wnew) ∧
      HasShape Wnew D D ∧
      ∀ j k, j < D → k < D →
        entry Wnew j k = entry W j k +
          lr * ((List.range labels.length).map fun i =>
            labels.getD i 0 * (targets.getD i []).getD j 0 *
              (queries.getD i []).getD k 0).sum := by
  have hlpos : 0 < labels.length := List.length_pos.mpr hne
  have htpos : 0 < targets.length := hlt ▸ hlpos
  have hqpos : 0 < queries.length := hlq ▸ hlpos
  have h0 : ¬(targets.length = 0 ∨ queries.length = 0) := by omega
  have htmem : targets.headD [] ∈ targets := by
    cases targets with
    | nil => simp at htpos
    | cons a as => simp [List.headD]
  have hqmem : queries.headD [] ∈ queries := by
    cases queries with
    | nil => simp at hqpos
    | cons a as => simp [List.headD]
  have hhead : ¬(queries.headD []).length ≠ (targets.headD []).length := by
    rw [hq _ hqmem, ht _ htmem]
    simp
  have hterms := updateTerms_ok targets queries labels (le_of_eq hlt) (le_of_eq hlq)
  have hgshape : ∀ m ∈ (List.range labels.length).map fun i =>
      matSmul (labels.getD i 0) (npOuter (targets.getD i []) (queries.getD i [])),
      HasShape m D D := by
    intro m hm
    simp only [List.mem_map, List.mem_range] at hm
    obtain ⟨i, hi, rfl⟩ := hm
    have hit : i < targets.length := hlt ▸ hi
    have hiq : i < queries.length := hlq ▸ hi
    have h1 : (targets.getD i []).length = D := by
      rw [getD_lt _ _ _ hit]
      exact ht _ (List.getElem_mem hit)
    have h2 : (queries.getD i []).length = D := by
      rw [getD_lt _ _ _ hiq]
      exact hq _ (List.getElem_mem hiq)
    have := hasShape_npOuter (targets.getD i []) (queries.getD i [])
    rw [h1, h2] at this
    exact hasShape_matSmul this _
  have hentry_g : ∀ i j k,
      entry (matSmul (labels.getD i 0) (npOuter (targets.getD i []) (queries.getD i []))) j k =
        labels.getD i 0 * (targets.getD i []).getD j 0 * (queries.getD i []).getD k 0 := by
    intro i j k
    rw [entry_matSmul, entry_npOuter, mul_assoc]
  have hnil : (List.range labels.length).map (fun i =>
      matSmul (labels.getD i 0) (npOuter (targets.getD i []) (queries.getD i []))) ≠ [] := by
    intro hnileq
    have hlen0 := congrArg List.length hnileq
    simp only [List.length_map, List.length_range, List.length_nil] at hlen0
    omega
  cases hcons : (List.range labels.length).map fun i =>
      matSmul (labels.getD i 0) (npOuter (targets.getD i []) (queries.getD i [])) with
  | nil => exact absurd hcons hnil
  | cons m rest =>
    have hmshape : HasShape m D D := hgshape m (by rw [hcons]; simp)
    have hrestshape : ∀ x ∈ rest, HasShape x D D := fun x hx =>
      hgshape x (by rw [hcons]; simp [hx])
    obtain ⟨S, hS, hSshape, hSentry⟩ := sumFrom_spec rest m hmshape hrestshape
    have hSentry2 : ∀ j k, j < D → k < D →
        entry S j k = ((List.range labels.length).map fun i =>
          labels.getD i 0 * (targets.getD i []).getD j 0 *
            (queries.getD i []).getD k 0).sum := by
      intro j k hj hk
      rw [hSentry j k hj hk]
      have hsum : entry m j k + ((rest.map fun mm => entry mm j k).sum) =
          (((m :: rest).map fun mm => entry mm j k).sum) := by
        simp
      rw [hsum, ← hcons, List.map_map]
      congr 1
      apply List.map_congr_left
      intro i hi
      exact hentry_g i j k
    have hsmulshape : HasShape (matSmul lr S) D D := hasShape_matSmul hSshape lr
    have hmadd := matAdd_ok hW hsmulshape
    have hWnewShape := hasShape_zipAdd hW hsmulshape
    refine ⟨_, ?_, hWnewShape, ?_⟩
    · have hsave : save_model
          (setW st1 (some (List.zipWith (fun r s => List.zipWith (· + ·) r s) W (matSmul lr S))))
          store = .ok (storeWrite store (modelPath st1)
            (List.zipWith (fun r s => List.zipWith (· + ·) r s) W (matSmul lr S))) := by
        have hl : (setW st1 (some (List.zipWith (fun r s => List.zipWith (· + ·) r s) W
            (matSmul lr S)))).login = true := hlogin
        unfold save_model
        rw [hl]
        simp [setW, modelPath]
      simp only [feedback, if_neg h0, if_neg hhead, hres, hterms, hcons, npSum, hS,
        hmadd, hsave]
    · intro j k hj hk
      rw [entry_zipAdd hW hsmulshape hj hk, entry_matSmul, hSentry2 j k hj hk]

/-! ### Symbolic execution of a successful rank call -/

theorem energy_ok {W : Mat} {query c : Vec} {D : Nat} (hW : HasShape W D D)
    (hq : query.length = D) (hc : c.length = D) :
    energy W query c = .ok (-(1/2 : ℚ) *
      (List.zipWith (· * ·) query
        (W.map fun row => (List.zipWith (· * ·) row c).sum)).sum) := by
  have h1 : npDotMV W c = .ok (W.map fun row => (List.zipWith (· * ·) row c).sum) := by
    unfold npDotMV
    rw [if_pos]
    intro row hrow
    rw [hW.2 row hrow, hc]
  have h2 : npDotVV query (W.map fun row => (List.zipWith (· * ·) row c).sum) =
      .ok (List.zipWith (· * ·) query
        (W.map fun row => (List.zipWith (· * ·) row c).sum)).sum := by
    unfold npDotVV
    rw [if_pos]
    rw [hq, List.length_map, hW.1]
  simp only [energy, h1, h2]

theorem energies_ok {W : Mat} {query : Vec} {D : Nat} (hW : HasShape W D D)
    (hq : query.length = D) :
    ∀ targets : List Vec, (∀ t ∈ targets, t.length = D) →
    ∃ es, energies W query targets = .ok es ∧ es.length = targets.length
  | [], _ => ⟨[], rfl, rfl⟩
  | c :: cs, h => by
    obtain ⟨es, hes, hlen⟩ := energies_ok hW hq cs fun t htm => h t (by simp [htm])
    have he := energy_ok hW hq (h c (by simp))
    refine ⟨(-(1/2 : ℚ) * (List.zipWith (· * ·) query
      (W.map fun row => (List.zipWith (· * ·) row c).sum)).sum) :: es, ?_, by simp [hlen]⟩
    simp only [energies, he, hes]

theorem argsort_perm (keys : List ℚ) : (argsort keys).Perm (List.range keys.length) :=
  List.perm_insertionSort _ _

theorem argsort_sorted (keys : List ℚ) :
    List.Pairwise (fun i j => keys.getD i 0 ≤ keys.getD j 0) (argsort keys) := by
  haveI h1 : IsTotal Nat fun i j => keys.getD i 0 ≤ keys.getD j 0 :=
    ⟨fun a b => le_total _ _⟩
  haveI h2 : IsTrans Nat fun i j => keys.getD i 0 ≤ keys.getD j 0 :=
    ⟨fun a b c hab hbc => le_trans hab hbc⟩
  exact List.sorted_insertionSort _ _

theorem rank_spec (st st1 : RankerState) (store : Store) (W : Mat)
    (targets : List Vec) (query : Vec) (D : Nat)
    (hne : targets ≠ [])
    (hq : query.length = D)
    (ht : ∀ t ∈ targets, t.length = D)
    (hres : resolveW st store query.length = .ok (W, st1))
    (hW : HasShape W D D) :
    ∃ es r, energies W query targets = .ok es ∧
      rank st store targets query = .ok (r, st1) ∧
      r.Perm (List.range targets.length) ∧
      List.Pairwise (fun i j => es.getD i 0 ≤ es.getD j 0) r := by
  obtain ⟨es, hes, hlen⟩ := energies_ok hW hq targets ht
  cases targets with
  | nil => exact absurd rfl hne
  | cons t0 ts =>
    have hd : ¬query.length ≠ t0.length := by
      rw [hq, ht t0 (by simp)]
      simp
    refine ⟨es, argsort es, hes, ?_, ?_, argsort_sorted es⟩
    · simp only [rank, if_neg hd, hres, hes]
    · rw [← hlen]
      exact argsort_perm es

/-! ### Frame lemmas: which paths a feedback call can touch -/

theorem resolveW_fields {st st1 : RankerState} {store : Store} {d : Nat} {W : Mat}
    (h : resolveW st store d = .ok (W, st1)) :
    modelPath st1 = modelPath st ∧ st1.login = st.login := by
  unfold resolveW at h
  cases hW : st.W with
  | some M =>
    simp only [hW] at h
    cases h
    exact ⟨rfl, rfl⟩
  | none =>
    simp only [hW, load_model] at h
    by_cases hl : st.login = false
    · simp only [if_pos hl] at h
      cases h
    · simp only [if_neg hl] at h
      cases hst : store (modelPath (setDim st (some d))) with
      | none =>
        simp only [hst] at h
        cases h
        exact ⟨rfl, rfl⟩
      | some M =>
        simp only [hst] at h
        cases h
        exact ⟨rfl, rfl⟩

theorem save_model_frame {st : RankerState} {store s1 : Store}
    (h : save_model st store = .ok s1) {p : String} (hp : p ≠ modelPath st) :
    s1 p = store p := by
  unfold save_model at h
  by_cases hl : st.login = false
  · rw [if_pos hl] at h
    cases h
  · rw [if_neg hl] at h
    cases hW : st.W with
    | none =>
      rw [hW] at h
      cases h
    | some M =>
      rw [hW] at h
      cases h
      simp [storeWrite, hp]

theorem feedback_frame (st : RankerState) (store : Store) (targets queries : List Vec)
    (labels : List ℚ) (lr : ℚ) (st2 : RankerState) (store1 : Store)
    (h : feedback st store targets queries labels lr = .ok (st2, store1))
    (p : String) (hp : p ≠ modelPath st) : store1 p = store p := by
  unfold feedback at h
  by_cases h0 : targets.length = 0 ∨ queries.length = 0
  · rw [if_pos h0] at h
    cases h
    rfl
  · rw [if_neg h0] at h
    by_cases h1 : (queries.headD []).length ≠ (targets.headD []).length
    · rw [if_pos h1] at h
      cases h
    · rw [if_neg h1] at h
      cases hres : resolveW st store (queries.headD []).length with
      | error e =>
        simp only [hres] at h
        cases h
      | ok pr =>
        obtain ⟨W, st1⟩ := pr
        simp only [hres] at h
        have hpath1 : modelPath st1 = modelPath st := (resolveW_fields hres).1
        cases hterms : updateTerms targets queries labels with
        | error e =>
          simp only [hterms] at h
          cases h
        | ok terms =>
          simp only [hterms] at h
          cases hsum : npSum terms with
          | error e =>
            simp only [hsum] at h
            cases h
          | ok os =>
            simp only [hsum] at h
            cases os with
            | none =>
              cases hs : save_model (setW st1 (some W)) store with
              | error e =>
                simp only [hs] at h
                cases h
              | ok s1 =>
                simp only [hs] at h
                obtain ⟨-, rfl⟩ := Prod.mk.injEq .. ▸ (Except.ok.injEq .. ▸ h)
                refine save_model_frame hs ?_
                show p ≠ modelPath st1
                rw [hpath1]
                exact hp
            | some S =>
              cases hadd : matAdd W (matSmul lr S) with
              | error e =>
                simp only [hadd] at h
                cases h
              | ok Wnew =>
                simp only [hadd] at h
                cases hs : save_model (setW st1 (some Wnew)) store with
                | error e =>
                  simp only [hs] at h
                  cases h
                | ok s1 =>
                  simp only [hs] at h
                  obtain ⟨-, rfl⟩ := Prod.mk.injEq .. ▸ (Except.ok.injEq .. ▸ h)
                  refine save_model_frame hs ?_
                  show p ≠ modelPath st1
                  rw [hpath1]
                  exact hp

/-! ### Classifying the possible errors of each operation -/

theorem load_model_error {st : RankerState} {store : Store} {d : Nat} {e : Err}
    (h : load_model st store d = .error e) : e = .unauthorized := by
  unfold load_model at h
  by_cases hl : st.login = false
  · rw [if_pos hl] at h
    cases h
    rfl
  · simp only [if_neg hl] at h
    cases hst : store (modelPath (setDim st (some d))) with
    | none =>
      simp only [hst] at h
      cases h
    | some M =>
      simp only [hst] at h
      cases h

theorem resolveW_error {st : RankerState} {store : Store} {d : Nat} {e : Err}
    (h : resolveW st store d = .error e) : e = .unauthorized := by
  unfold resolveW at h
  cases hW : st.W with
  | some M =>
    simp only [hW] at h
    cases h
  | none =>
    simp only [hW] at h
    exact load_model_error h

theorem npDotMV_error {A : Mat} {v : Vec} {e : Err} (h : npDotMV A v = .error e) :
    e = .shapeError := by
  unfold npDotMV at h
  by_cases h1 : ∀ row ∈ A, row.length = v.length
  · rw [if_pos h1] at h
    cases h
  · rw [if_neg h1] at h
    cases h
    rfl

theorem npDotVV_error {a b : Vec} {e : Err} (h : npDotVV a b = .error e) :
    e = .shapeError := by
  unfold npDotVV at h
  by_cases h1 : a.length = b.length
  · rw [if_pos h1] at h
    cases h
  · rw [if_neg h1] at h
    cases h
    rfl

theorem energy_error {W : Mat} {query c : Vec} {e : Err}
    (h : energy W query c = .error e) : e = .shapeError := by
  unfold energy at h
  cases hmv : npDotMV W c with
  | error e2 =>
    simp only [hmv] at h
    cases h
    exact npDotMV_error hmv
  | ok Wc =>
    simp only [hmv] at h
    cases hvv : npDotVV query Wc with
    | error e2 =>
      simp only [hvv] at h
      cases h
      exact npDotVV_error hvv
    | ok s =>
      simp only [hvv] at h
      cases h

theorem energies_error {W : Mat} {query : Vec} {e : Err} :
    ∀ targets : List Vec, energies W query targets = .error e → e = .shapeError
  | [], h => by cases h
  | c :: cs, h => by
    unfold energies at h
    cases he : energy W query c with
    | error e2 =>
      simp only [he] at h
      cases h
      exact energy_error he
    | ok x =>
      simp only [he] at h
      cases hes : energies W query cs with
      | error e2 =>
        simp only [hes] at h
        cases h
        exact energies_error cs hes
      | ok xs =>
        simp only [hes] at h
        cases h

theorem rank_cached_no_gate {st : RankerState} {store : Store} {targets : List Vec}
    {query : Vec} {W : Mat} (hW : st.W = some W) :
    rank st store targets query ≠ .error .unauthorized := by
  cases targets with
  | nil =>
    simp [rank]
  | cons t0 ts =>
    by_cases hd : query.length ≠ t0.length
    · simp [rank, if_pos hd]
    · simp only [rank, if_neg hd]
      have hres : resolveW st store query.length = .ok (W, st) := by
        unfold resolveW
        rw [hW]
      simp only [hres]
      cases hes : energies W query (t0 :: ts) with
      | error e =>
        have he := energies_error (t0 :: ts) hes
        simp [he]
      | ok es =>
        simp

/-! ### Claim theorems -/

/-- C1: for every non-empty candidate list with all candidates and the query of
one dimension D, with the resolved weight matrix of shape D×D, `rank` succeeds
and returns a permutation of the indices 0..N-1 (each exactly once) ordered by
ascending energy, so the first returned index has a lowest energy. -/
theorem C1_rank_sorted_permutation (st st1 : RankerState) (store : Store) (W : Mat)
    (targets : List Vec) (query : Vec) (D : Nat)
    (hne : targets ≠ [])
    (hq : query.length = D)
    (ht : ∀ t ∈ targets, t.length = D)
    (hres : resolveW st store query.length = .ok (W, st1))
    (hW : HasShape W D D) :
    ∃ es r, energies W query targets = .ok es ∧
      rank st store targets query = .ok (r, st1) ∧
      r.Perm (List.range targets.length) ∧
      List.Pairwise (fun i j => es.getD i 0 ≤ es.getD j 0) r ∧
      ∀ j < targets.length, es.getD (r.headD 0) 0 ≤ es.getD j 0 := by
  obtain ⟨es, r, hes, hrank, hperm, hsorted⟩ :=
    rank_spec st st1 store W targets query D hne hq ht hres hW
  refine ⟨es, r, hes, hrank, hperm, hsorted, ?_⟩
  intro j hj
  have hjr : j ∈ r := hperm.mem_iff.mpr (List.mem_range.mpr hj)
  cases r with
  | nil => simp at hjr
  | cons a tl =>
    simp only [List.headD_cons]
    rcases List.mem_cons.mp hjr with rfl | hjtl
    · exact le_refl _
    · exact (List.pairwise_cons.mp hsorted).1 j hjtl

/-- Witness for C1 at a concrete input: one cached 1×1 matrix, two candidates. -/
theorem C1_witness :
    (([[2],[3]] : List Vec) ≠ [] ∧ ([1] : Vec).length = 1 ∧
      (∀ t ∈ ([[2],[3]] : List Vec), t.length = 1) ∧
      resolveW ⟨"u","p","s","models/", none, some [[1]], true⟩ emptyStore
        ([1] : Vec).length =
        .ok ([[1]], ⟨"u","p","s","models/", none, some [[1]], true⟩) ∧
      HasShape ([[1]] : Mat) 1 1) ∧
    (∃ es r, energies [[1]] [1] ([[2],[3]] : List Vec) = .ok es ∧
      rank ⟨"u","p","s","models/", none, some [[1]], true⟩ emptyStore
        ([[2],[3]] : List Vec) [1] =
        .ok (r, ⟨"u","p","s","models/", none, some [[1]], true⟩) ∧
      r.Perm (List.range ([[2],[3]] : List Vec).length) ∧
      List.Pairwise (fun i j => es.getD i 0 ≤ es.getD j 0) r ∧
      ∀ j < ([[2],[3]] : List Vec).length, es.getD (r.headD 0) 0 ≤ es.getD j 0) :=
  ⟨⟨by decide, rfl, by decide, rfl, by decide⟩,
    C1_rank_sorted_permutation ⟨"u","p","s","models/", none, some [[1]], true⟩
      ⟨"u","p","s","models/", none, some [[1]], true⟩ emptyStore [[1]]
      [[2],[3]] [1] 1 (by decide) rfl (by decide) rfl (by decide)⟩

/-- C2: feedback over a nonempty parallel batch of one dimension D, starting
from the resolved weight matrix W (shape D×D), produces and persists
`W + lr * sum over i of labels[i] * outer(candidates[i], queries[i])`, stated
entrywise: the new entry (j,k) is the old one plus
`lr * sum over i of labels[i] * candidates[i][j] * queries[i][k]`. -/
theorem C2_feedback_update_formula (st st1 : RankerState) (store : Store) (W : Mat)
    (targets queries : List Vec) (labels : List ℚ) (lr : ℚ) (D : Nat)
    (hlt : labels.length = targets.length)
    (hlq : labels.length = queries.length)
    (hne : labels ≠ [])
    (ht : ∀ t ∈ targets, t.length = D)
    (hq : ∀ q ∈ queries, q.length = D)
    (hres : resolveW st store (queries.headD []).length = .ok (W, st1))
    (hW : HasShape W D D)
    (hlogin : st1.login = true) :
    ∃ Wnew,
      feedback st store targets queries labels lr =
        .ok (setW st1 (some Wnew), storeWrite store (modelPath st1) Wnew) ∧
      HasShape Wnew D D ∧
      ∀ j k, j < D → k < D →
        entry Wnew j k = entry W j k +
          lr * ((List.range labels.length).map fun i =>
            labels.getD i 0 * (targets.getD i []).getD j 0 *
              (queries.getD i []).getD k 0).sum :=
  feedback_spec st st1 store W targets queries labels lr D hlt hlq hne ht hq hres hW hlogin

/-- Witness for C2 at the spec example: identity 3×3 start, one triple
with candidate [1,0,0], query [0,1,0], label 1, learning rate 1. -/
theorem C2_witness :
    (([1] : List ℚ).length = ([[1,0,0]] : List Vec).length ∧
      ([1] : List ℚ).length = ([[0,1,0]] : List Vec).length ∧
      ([1] : List ℚ) ≠ [] ∧
      (∀ t ∈ ([[1,0,0]] : List Vec), t.length = 3) ∧
      (∀ q ∈ ([[0,1,0]] : List Vec), q.length = 3) ∧
      resolveW ⟨"u","p","s","models/", none,
          some [[1,0,0],[0,1,0],[0,0,1]], true⟩ emptyStore
        (([[0,1,0]] : List Vec).headD []).length =
        .ok ([[1,0,0],[0,1,0],[0,0,1]],
          ⟨"u","p","s","models/", none, some [[1,0,0],[0,1,0],[0,0,1]], true⟩) ∧
      HasShape ([[1,0,0],[0,1,0],[0,0,1]] : Mat) 3 3 ∧
      (⟨"u","p","s","models/", none, some [[1,0,0],[0,1,0],[0,0,1]], true⟩ :
        RankerState).login = true) ∧
    (∃ Wnew,
      feedback ⟨"u","p","s","models/", none, some [[1,0,0],[0,1,0],[0,0,1]], true⟩
          emptyStore [[1,0,0]] [[0,1,0]] [1] 1 =
        .ok (setW ⟨"u","p","s","models/", none,
            some [[1,0,0],[0,1,0],[0,0,1]], true⟩ (some Wnew),
          storeWrite emptyStore
            (modelPath (⟨"u","p","s","models/", none,
              some [[1,0,0],[0,1,0],[0,0,1]], true⟩ : RankerState)) Wnew) ∧
      HasShape Wnew 3 3 ∧
      ∀ j k, j < 3 → k < 3 →
        entry Wnew j k = entry [[1,0,0],[0,1,0],[0,0,1]] j k +
          1 * ((List.range ([1] : List ℚ).length).map fun i =>
            ([1] : List ℚ).getD i 0 * (([[1,0,0]] : List Vec).getD i []).getD j 0 *
              (([[0,1,0]] : List Vec).getD i []).getD k 0).sum) :=
  ⟨⟨rfl, rfl, by decide, by decide, by decide, rfl, by decide, rfl⟩,
    C2_feedback_update_formula
      ⟨"u","p","s","models/", none, some [[1,0,0],[0,1,0],[0,0,1]], true⟩
      ⟨"u","p","s","models/", none, some [[1,0,0],[0,1,0],[0,0,1]], true⟩
      emptyStore [[1,0,0],[0,1,0],[0,0,1]] [[1,0,0]] [[0,1,0]] [1] 1 3
      rfl rfl (by decide) (by decide) (by decide) rfl (by decide) rfl⟩

/-- C3 (amended): rank raises the DimensionMismatch exception exactly when the
query length differs from the FIRST candidate length (the only length the code
compares); when the first candidate matches, DimensionMismatch is never raised
— a later candidate of mismatched length instead fails inside the numpy dot
products with a shape error (see the counterexample). -/
theorem C3_dimension_check_first_only (st : RankerState) (store : Store)
    (t0 : Vec) (ts : List Vec) (query : Vec) :
    (query.length ≠ t0.length →
      rank st store (t0 :: ts) query = .error .dimensionMismatch) ∧
    (query.length = t0.length →
      rank st store (t0 :: ts) query ≠ .error .dimensionMismatch) := by
  constructor
  · intro hne
    simp only [rank, if_pos hne]
  · intro heq
    have hd : ¬query.length ≠ t0.length := by simp [heq]
    simp only [rank, if_neg hd]
    cases hres : resolveW st store query.length with
    | error e =>
      have he := resolveW_error hres
      simp [he]
    | ok pr =>
      obtain ⟨W, st1⟩ := pr
      cases hes : energies W query (t0 :: ts) with
      | error e =>
        have he := energies_error (t0 :: ts) hes
        simp [hes, he]
      | ok es =>
        simp [hes]

/-- Witness for C3 (amended) at a concrete input: dimension-5 candidates
against a dimension-8 query raise DimensionMismatch, the spec test case. -/
theorem C3_witness :
    rank ⟨"u","p","s","models/", none, none, true⟩ emptyStore
      ([[1,2,3,4,5],[6,7,8,9,10]] : List Vec) ([1,2,3,4,5,6,7,8] : Vec) =
      .error .dimensionMismatch :=
  (C3_dimension_check_first_only ⟨"u","p","s","models/", none, none, true⟩
    emptyStore [1,2,3,4,5] [[6,7,8,9,10]] [1,2,3,4,5,6,7,8]).1 (by decide)

/-- C3 counterexample: candidates [[1,2],[1,2,3]] — the SECOND has a
mismatched length — with query [1,1]: rank fails, but with the numpy shape
error from `np.dot`, not with the DimensionMismatch exception the claim
demands for any mismatched candidate. -/
theorem C3_counterexample :
    rank ⟨"u","p","s","models/", none, none, true⟩ emptyStore
      ([[1,2],[1,2,3]] : List Vec) ([1,1] : Vec) = .error .shapeError ∧
    Err.shapeError ≠ Err.dimensionMismatch :=
  ⟨rfl, by decide⟩

/-- C5: feedback with all three sequences empty returns immediately as a
no-op: the state (hence no model load) and the store (hence no persisted
matrix and no new storage entry) are returned exactly unchanged, for every
state — even one with a failing gate — and every store. -/
theorem C5_empty_feedback_noop (st : RankerState) (store : Store) (lr : ℚ) :
    feedback st store [] [] [] lr = .ok (st, store) :=
  rfl

/-- C6: feedback over a nonempty batch whose labels are all 0 leaves the
weight matrix numerically unchanged, yet still persists it: the store is
written at the model path with the unchanged matrix W. -/
theorem C6_zero_labels_unchanged_but_persisted (st st1 : RankerState) (store : Store)
    (W : Mat) (targets queries : List Vec) (labels : List ℚ) (lr : ℚ) (D : Nat)
    (hlt : labels.length = targets.length)
    (hlq : labels.length = queries.length)
    (hne : labels ≠ [])
    (hzero : ∀ l ∈ labels, l = 0)
    (ht : ∀ t ∈ targets, t.length = D)
    (hq : ∀ q ∈ queries, q.length = D)
    (hres : resolveW st store (queries.headD []).length = .ok (W, st1))
    (hW : HasShape W D D)
    (hlogin : st1.login = true) :
    feedback st store targets queries labels lr =
      .ok (setW st1 (some W), storeWrite store (modelPath st1) W) := by
  obtain ⟨Wnew, hfb, hshape, hentry⟩ :=
    feedback_spec st st1 store W targets queries labels lr D hlt hlq hne ht hq hres hW hlogin
  have hWW : Wnew = W := by
    apply mat_ext hshape hW
    intro j k hj hk
    rw [hentry j k hj hk]
    have hzs : ((List.range labels.length).map fun i =>
        labels.getD i 0 * (targets.getD i []).getD j 0 *
          (queries.getD i []).getD k 0).sum = 0 := by
      apply List.sum_eq_zero
      intro x hx
      simp only [List.mem_map, List.mem_range] at hx
      obtain ⟨i, hi, rfl⟩ := hx
      have hlab : labels.getD i 0 = 0 := by
        rw [getD_lt _ _ _ hi]
        exact hzero _ (List.getElem_mem hi)
      rw [hlab, zero_mul, zero_mul]
    rw [hzs, mul_zero, add_zero]
  rw [hWW] at hfb
  exact hfb

/-- Witness for C6 at a concrete input: cached 1×1 matrix, one triple with
label 0. -/
theorem C6_witness :
    (([0] : List ℚ).length = ([[2]] : List Vec).length ∧
      ([0] : List ℚ).length = ([[3]] : List Vec).length ∧
      ([0] : List ℚ) ≠ [] ∧
      (∀ l ∈ ([0] : List ℚ), l = 0) ∧
      (∀ t ∈ ([[2]] : List Vec), t.length = 1) ∧
      (∀ q ∈ ([[3]] : List Vec), q.length = 1) ∧
      resolveW ⟨"u","p","s","models/", none, some [[1]], true⟩ emptyStore
        (([[3]] : List Vec).headD []).length =
        .ok ([[1]], ⟨"u","p","s","models/", none, some [[1]], true⟩) ∧
      HasShape ([[1]] : Mat) 1 1 ∧
      (⟨"u","p","s","models/", none, some [[1]], true⟩ : RankerState).login = true) ∧
    feedback ⟨"u","p","s","models/", none, some [[1]], true⟩ emptyStore
        [[2]] [[3]] [0] 1 =
      .ok (setW ⟨"u","p","s","models/", none, some [[1]], true⟩ (some [[1]]),
        storeWrite emptyStore
          (modelPath (⟨"u","p","s","models/", none, some [[1]], true⟩ :
            RankerState)) [[1]]) :=
  ⟨⟨rfl, rfl, by decide, by decide, by decide, by decide, rfl, by decide, rfl⟩,
    C6_zero_labels_unchanged_but_persisted
      ⟨"u","p","s","models/", none, some [[1]], true⟩
      ⟨"u","p","s","models/", none, some [[1]], true⟩
      emptyStore [[1]] [[2]] [[3]] [0] 1 1
      rfl rfl (by decide) (by decide) (by decide) (by decide) rfl (by decide) rfl⟩

/-- C7 (amended): the authorization gate is checked inside `load_model` and
`save_model`, and a failing gate aborts them with Unauthorized before any
store read or write (the error is returned with no store access); but the gate
is NOT invoked on every operation: `rank` with a cached weight matrix performs
no gate check at all and can never fail with Unauthorized. -/
theorem C7_gate_only_at_load_and_save (st : RankerState) (store : Store) (d : Nat)
    (targets : List Vec) (query : Vec) (W : Mat) :
    (st.login = false →
      load_model st store d = .error .unauthorized ∧
      save_model st store = .error .unauthorized) ∧
    (st.W = some W →
      rank st store targets query ≠ .error .unauthorized) := by
  constructor
  · intro hl
    constructor
    · unfold load_model
      rw [if_pos hl]
    · unfold save_model
      rw [if_pos hl]
  · intro hW
    exact rank_cached_no_gate hW

/-- Witness for C7 (amended) at a concrete input: a failing gate makes
load_model and save_model abort, while rank with a cached matrix cannot
return Unauthorized. -/
theorem C7_witness :
    (load_model ⟨"u","p","s","models/", none, some [[1]], false⟩ emptyStore 1 =
        .error .unauthorized ∧
      save_model ⟨"u","p","s","models/", none, some [[1]], false⟩ emptyStore =
        .error .unauthorized) ∧
    rank ⟨"u","p","s","models/", none, some [[1]], false⟩ emptyStore
      ([[2]] : List Vec) [1] ≠ .error .unauthorized :=
  ⟨(C7_gate_only_at_load_and_save ⟨"u","p","s","models/", none, some [[1]], false⟩
      emptyStore 1 [[2]] [1] [[1]]).1 rfl,
    (C7_gate_only_at_load_and_save ⟨"u","p","s","models/", none, some [[1]], false⟩
      emptyStore 1 [[2]] [1] [[1]]).2 rfl⟩

/-- C7 counterexample: with a failing authorization gate but a cached weight
matrix, rank succeeds and returns a ranking instead of aborting with an
Unauthorized error — the gate is not invoked on every operation. -/
theorem C7_counterexample :
    (⟨"u","p","s","models/", none, some [[1]], false⟩ : RankerState).login = false ∧
    rank ⟨"u","p","s","models/", none, some [[1]], false⟩ emptyStore
      ([[2]] : List Vec) [1] =
      .ok ([0], ⟨"u","p","s","models/", none, some [[1]], false⟩) :=
  ⟨rfl, rfl⟩

/-- C8 (amended): a feedback call can write only at its own model path
`os.path.join(model_location, user_id ++ "_" ++ session_id)`; every other
path — in particular the path of any key whose joined name differs — keeps
its prior content.  Isolation therefore holds exactly between keys with
different joined names; distinct (owner, session) pairs whose joined names
coincide share one stored matrix (see the counterexample). -/
theorem C8_isolation_by_path (st : RankerState) (store : Store)
    (targets queries : List Vec) (labels : List ℚ) (lr : ℚ)
    (st2 : RankerState) (store1 : Store)
    (h : feedback st store targets queries labels lr = .ok (st2, store1))
    (p : String) (hp : p ≠ modelPath st) : store1 p = store p :=
  feedback_frame st store targets queries labels lr st2 store1 h p hp

/-- Witness for C8 (amended) at a concrete input: a feedback run under key
("a", "b_c") leaves the unrelated path "models/other" unchanged. -/
theorem C8_witness :
    (feedback ⟨"a","p","b_c","models/", none, none, true⟩ emptyStore
        ([[2]] : List Vec) ([[3]] : List Vec) ([] : List ℚ) 1 =
      .ok (setW (setW (setDim ⟨"a","p","b_c","models/", none, none, true⟩ (some 1))
          (some (eye 1))) (some (eye 1)),
        storeWrite emptyStore
          (modelPath (⟨"a","p","b_c","models/", none, none, true⟩ : RankerState))
          (eye 1)) ∧
      ("models/other" : String) ≠
        modelPath (⟨"a","p","b_c","models/", none, none, true⟩ : RankerState)) ∧
    storeWrite emptyStore
      (modelPath (⟨"a","p","b_c","models/", none, none, true⟩ : RankerState))
      (eye 1) "models/other" = emptyStore "models/other" :=
  ⟨⟨rfl, by decide⟩,
    C8_isolation_by_path ⟨"a","p","b_c","models/", none, none, true⟩ emptyStore
      [[2]] [[3]] [] 1
      (setW (setW (setDim ⟨"a","p","b_c","models/", none, none, true⟩ (some 1))
        (some (eye 1))) (some (eye 1)))
      (storeWrite emptyStore
        (modelPath (⟨"a","p","b_c","models/", none, none, true⟩ : RankerState))
        (eye 1))
      rfl "models/other" (by decide)⟩

/-- C8 counterexample: the distinct ModelKeys ("a","b_c") and ("a_b","c") are
mapped to one storage path "models/a_b_c", and a feedback update under the
first key creates the stored matrix at the path the second key reads: the
key-to-storage-location mapping does map two distinct keys to the same stored
matrix, refuting full key independence. -/
theorem C8_counterexample :
    (("a" : String), ("b_c" : String)) ≠ (("a_b" : String), ("c" : String)) ∧
    modelPath (⟨"a","p","b_c","models/", none, none, true⟩ : RankerState) =
      modelPath (⟨"a_b","p2","c","models/", none, none, true⟩ : RankerState) ∧
    emptyStore (modelPath (⟨"a_b","p2","c","models/", none, none, true⟩ :
      RankerState)) = none ∧
    (feedback ⟨"a","p","b_c","models/", none, none, true⟩ emptyStore
        ([[2]] : List Vec) ([[3]] : List Vec) ([1] : List ℚ) 1).map
      (fun r => (r.2 (modelPath (⟨"a_b","p2","c","models/", none, none, true⟩ :
        RankerState))).isSome) = .ok true :=
  ⟨by decide, by decide, rfl, rfl⟩

/-- C9 (amended): `load_model` performs no dimension check — whenever a
persisted matrix exists for the key, it is returned unchanged whatever the
requested dimension, rather than any DimensionMismatch being raised. -/
theorem C9_load_ignores_dimension (st : RankerState) (store : Store) (d : Nat)
    (M : Mat)
    (hlogin : st.login = true)
    (hst : store (modelPath st) = some M) :
    load_model st store d = .ok (M, setW (setDim st (some d)) (some M)) := by
  unfold load_model
  rw [hlogin]
  have hpath : modelPath (setDim st (some d)) = modelPath st := rfl
  simp only [hpath, hst]
  simp

/-- Witness for C9 (amended) at a concrete input: a stored 2×2 matrix is
returned unchanged by a load requesting dimension 3. -/
theorem C9_witness :
    ((⟨"u","p","s","models/", none, none, true⟩ : RankerState).login = true ∧
      storeWrite emptyStore "models/u_s" ([[1,2],[3,4]] : Mat)
        (modelPath (⟨"u","p","s","models/", none, none, true⟩ : RankerState)) =
        some [[1,2],[3,4]]) ∧
    load_model ⟨"u","p","s","models/", none, none, true⟩
      (storeWrite emptyStore "models/u_s" ([[1,2],[3,4]] : Mat)) 3 =
      .ok ([[1,2],[3,4]],
        setW (setDim ⟨"u","p","s","models/", none, none, true⟩ (some 3))
          (some [[1,2],[3,4]])) :=
  ⟨⟨rfl, rfl⟩,
    C9_load_ignores_dimension ⟨"u","p","s","models/", none, none, true⟩
      (storeWrite emptyStore "models/u_s" ([[1,2],[3,4]] : Mat)) 3
      [[1,2],[3,4]] rfl rfl⟩

/-- C9 counterexample: a stored matrix of dimension 2 under the key, loaded
with requested dimension 3, is returned as-is with success — no
DimensionMismatch error is raised. -/
theorem C9_counterexample :
    (([[1,2],[3,4]] : Mat).length = 2 ∧ (2 : Nat) ≠ 3) ∧
    load_model ⟨"u","p","s","models/", none, none, true⟩
      (storeWrite emptyStore "models/u_s" ([[1,2],[3,4]] : Mat)) 3 =
      .ok ([[1,2],[3,4]],
        ⟨"u","p","s","models/", some 3, some [[1,2],[3,4]], true⟩) :=
  ⟨⟨rfl, by decide⟩, rfl⟩

/-- C10: rank called with an empty candidate list always fails with the
IndexError raised by indexing `target_vector_array[0]`, for every state —
including one whose gate would fail, showing no authorization check runs
first — and every store (which is never read or written); it never returns a
ranking. -/
theorem C10_empty_candidates_fail (st : RankerState) (store : Store) (query : Vec) :
    rank st store [] query = .error .indexError :=
  rfl

end Innermatch
